import Mathlib

/-!
Verification of the audio_classifier pipeline scripts.

Shallow embedding of the repository's own sequencing logic:
  - src/src/audio_classifier/train/collate/preprocessing/spectrogram/transform.py
    (stft_spectrogram_collate, mel_spectrogram_collate)
  - src/src/script/train/feature_engineering/feature_common.py
    (SliceDataset, generate_slice_dataset's seterr scope, convert_to_ndarray)
  - src/src/script/validate/bias_variance.py
    (try_fit_skms, fit_skms, train_classifier, val_classifier, infer_single_audio)

External numerical collaborators (librosa, the mel/stft transform kernels,
SphericalKMeans optimisation, the elbow visualizer, PCA/SVM, the torch
DataLoader) are out of the repository's scope; they are modelled as abstract
function parameters, while every argument the repository's code passes to
them is recorded faithfully.  Machine floats that only flow through the
control logic are modelled as rationals.
-/

namespace AudioClassifier

/-- Configuration record for the mel spectrogram transform
(conf_spec.MelSpecConfig): exactly the fields the embedded call sites read. -/
structure MelSpecConfig where
  sample_rate : ℚ
  n_fft : ℕ
  n_mels : ℕ
  freq_min : ℚ
  freq_max : ℚ
  window_size : ℕ
  hop_size : ℕ
  apply_log : Bool
deriving DecidableEq

/-- Configuration record for the stft spectrogram transform
(conf_spec.STFTSpecConfig): the fields stft_spectrogram_collate reads. -/
structure STFTSpecConfig where
  sample_rate : ℚ
  n_fft : ℕ
  window_size : ℕ
  hop_size : ℕ
  apply_log : Bool
deriving DecidableEq

/-- Configuration for slicing a spectrogram (conf_reshape.ReshapeConfig). -/
structure ReshapeConfig where
  slice_size : ℕ
  stride_size : ℕ
deriving DecidableEq

/-- Configuration for pooling (conf_pool.PoolConfig). -/
structure PoolConfig where
  pool_size : ℕ
  stride_size : ℕ
deriving DecidableEq

/-- Configuration for spherical k-means (conf_alg.SKMConfig): the fields the
fitting code forwards to the SphericalKMeans constructor. -/
structure SKMConfig where
  n_components : Option ℚ
  normalize : Bool
  standardize : Bool
  whiten : Bool
deriving DecidableEq

/-- Argument record of a call to transform_mel_spectrogram (the external mel
transform kernel).  The embedding records what the repository passes. -/
structure MelTransformArgs where
  sample_rate : ℚ
  n_fft : ℕ
  n_mels : ℕ
  freq_min : ℚ
  freq_max : ℚ
  window_size : ℕ
  hop_size : ℕ
  apply_log : Bool
deriving DecidableEq

/-- Argument record of a call to transform_stft_spectrogram. -/
structure STFTTransformArgs where
  sample_rate : ℚ
  n_fft : ℕ
  window_size : ℕ
  hop_size : ℕ
  apply_log : Bool
deriving DecidableEq

/-- Effective frequency upper bound computed by mel_spectrogram_collate
(transform.py line 52): the configured freq_max when positive, else
sample_rate / 2. -/
def mel_collate_effective_freq_max (config : MelSpecConfig) : ℚ :=
  if config.freq_max > 0 then config.freq_max else config.sample_rate / 2

/-- Argument record mel_spectrogram_collate passes to the mel transform for
each item (transform.py lines 54-63), with the effective freq_max. -/
def mel_collate_transform_args (config : MelSpecConfig) (freq_max : ℚ) :
    MelTransformArgs :=
  ⟨config.sample_rate, config.n_fft, config.n_mels, config.freq_min, freq_max,
    config.window_size, config.hop_size, config.apply_log⟩

/-- Embedding of mel_spectrogram_collate (transform.py lines 37-65).  W is the
sound-wave type, S the spectrogram type, F and T the frequency/time axis
types; transform_mel is the external mel transform.  Each batch item
(filename, sound_wave, label) is mapped to
(filename, mel_spec, mel_freq, mel_time, label) in order. -/
def mel_spectrogram_collate {W S F T : Type}
    (transform_mel : W → MelTransformArgs → S × F × T)
    (data : List (String × W × ℤ)) (config : MelSpecConfig) :
    List (String × S × F × T × ℤ) :=
  let freq_max : ℚ := mel_collate_effective_freq_max config
  data.map (fun d =>
    let r := transform_mel d.2.1 (mel_collate_transform_args config freq_max)
    (d.1, r.1, r.2.1, r.2.2, d.2.2))

/-- Argument record stft_spectrogram_collate passes to the stft transform for
each item (transform.py lines 26-32). -/
def stft_collate_transform_args (config : STFTSpecConfig) : STFTTransformArgs :=
  ⟨config.sample_rate, config.n_fft, config.window_size, config.hop_size,
    config.apply_log⟩

/-- Embedding of stft_spectrogram_collate (transform.py lines 10-34). -/
def stft_spectrogram_collate {W S F T : Type}
    (transform_stft : W → STFTTransformArgs → S × F × T)
    (data : List (String × W × ℤ)) (config : STFTSpecConfig) :
    List (String × S × F × T × ℤ) :=
  data.map (fun d =>
    let r := transform_stft d.2.1 (stft_collate_transform_args config)
    (d.1, r.1, r.2.1, r.2.2, d.2.2))

/-- Value of the numpy "divide" error-handling mode, the state np.seterr
mutates (numpy accepts ignore, warn, raise, call, print, log). -/
inductive DivideMode where
  | ignore
  | warn
  | raiseMode
  | callMode
  | printMode
  | logMode
deriving DecidableEq

/-- Effect of np.seterr(divide=m) on the process-wide divide mode: the new
mode replaces the previous one unconditionally. -/
def np_seterr_divide (m : DivideMode) (_prev : DivideMode) : DivideMode := m

/-- Divide mode after generate_slice_dataset returns (feature_common.py lines
49-55), as a function of the mode before the call: seterr(ignore), the batch
loading, then seterr(warn); the normal (no-exception) path. -/
def generate_slice_dataset_divide_mode (s : DivideMode) : DivideMode :=
  np_seterr_divide .warn (np_seterr_divide .ignore s)

/-- Divide mode after try_fit_skms returns (bias_variance.py lines 180-183):
seterr(ignore) before the batch loop and seterr(ignore) again after it. -/
def try_fit_skms_divide_mode (s : DivideMode) : DivideMode :=
  np_seterr_divide .ignore (np_seterr_divide .ignore s)

/-- Divide mode after fit_skms returns (bias_variance.py lines 246-249). -/
def fit_skms_divide_mode (s : DivideMode) : DivideMode :=
  np_seterr_divide .ignore (np_seterr_divide .ignore s)

/-- Divide mode after train_classifier returns (bias_variance.py lines
297-300). -/
def train_classifier_divide_mode (s : DivideMode) : DivideMode :=
  np_seterr_divide .ignore (np_seterr_divide .ignore s)

/-- Divide mode after val_classifier returns (bias_variance.py lines
345-348). -/
def val_classifier_divide_mode (s : DivideMode) : DivideMode :=
  np_seterr_divide .ignore (np_seterr_divide .ignore s)

/-- Embedding of feature_common.SliceDataset, the materialised training data;
alpha is the type of one flattened slice (an np.ndarray in the source).  The
sample_freqs and sample_times fields are omitted: no embedded claim path
reads them. -/
structure SliceDataset (α : Type) where
  filenames : List String
  flat_slices : List (List α)
  labels : List ℤ

/-- Embedding of feature_common.convert_to_ndarray (feature_common.py lines
68-90): the loop over zip(labels, flat_slices) extends the slice sequence by
each file's slices and the label sequence by that file's label repeated once
per slice. -/
def convert_to_ndarray {α : Type} (slice_dataset : SliceDataset α) :
    List α × List ℤ :=
  (slice_dataset.labels.zip slice_dataset.flat_slices).foldl
    (fun acc p => (acc.1 ++ p.2, acc.2 ++ List.replicate p.2.length p.1))
    ([], [])

/-- Insertion of an integer into a strictly sorted duplicate-free list,
keeping it strictly sorted and duplicate-free. -/
def insertSorted (x : ℤ) : List ℤ → List ℤ
  | [] => [x]
  | y :: ys =>
      if x < y then x :: y :: ys
      else if x = y then y :: ys
      else y :: insertSorted x ys

/-- Embedding of np.unique on a 1-D integer array: the sorted list of the
distinct values. -/
def np_unique (l : List ℤ) : List ℤ :=
  l.foldl (fun acc x => insertSorted x acc) []

/-- Argument record of a SphericalKMeans construction.  Only the named
arguments that the repository's call sites pass are set; random_state is
Option-valued and stays none because no call site passes a seed. -/
structure SKMParams where
  n_clusters : Option ℤ
  n_components : Option ℚ
  normalize : Bool
  standardize : Bool
  whiten : Bool
  copy : Bool
  max_iter : ℕ
  random_state : Option ℕ
deriving DecidableEq

/-- SphericalKMeans constructed for the elbow search (bias_variance.py lines
198-203): no n_clusters, no random_state, max_iter 10000. -/
def skm_search_params (cfg : SKMConfig) : SKMParams :=
  ⟨none, cfg.n_components, cfg.normalize, cfg.standardize, cfg.whiten,
    true, 10000, none⟩

/-- SphericalKMeans constructed for the actual codebook fit (bias_variance.py
lines 219-226 and 263-270): n_clusters = k, no random_state, max_iter
10000. -/
def skm_fit_params (cfg : SKMConfig) (k : ℤ) : SKMParams :=
  ⟨some k, cfg.n_components, cfg.normalize, cfg.standardize, cfg.whiten,
    true, 10000, none⟩

/-- Record of one executed skm.fit call producing a codebook: the constructor
arguments, the data array passed to fit, and (instrumentation) the label of
the per-class loop iteration in which the fit was invoked. -/
structure FittedSKM (α : Type) where
  fit_label : ℤ
  params : SKMParams
  data : List α

/-- Return value of try_fit_skms: the fitted codebooks and the per-class
elbow statistics, appended in loop order. -/
structure SweepResult (α : Type) where
  skms : List (FittedSKM α)
  k_vals : List ℤ
  k_scores : List (List ℚ)

/-- Configuration slice of BiasVarianceConfig consulted by the fitting loop
(skm_config and the sweep range; the loading/augment configs feed the
abstracted DataLoader phase). -/
structure BiasVarianceConfig where
  skm_config : SKMConfig
  k_min : ℤ
  k_max : ℤ
  k_step : ℤ

/-- Per-class loop of try_fit_skms (bias_variance.py lines 197-228).  The
elbow visualizer is an external collaborator: elbow i is the pair
(elbow_value_, k_scores_) its fit produces in iteration i (the index models
the visualizer's hidden initialisation randomness; its other inputs, the
estimator params, the k range and the slices, are loop-invariant).  On no
elbow the loop records k = -1 with an empty score list and fits nothing;
otherwise it records the elbow value and its scores and fits a fresh
SphericalKMeans with n_clusters = elbow value on the whole slices array. -/
def try_fit_skms_loop {α : Type} (cfg : SKMConfig) (slices : List α)
    (elbow : ℕ → Option ℤ × List ℚ) : List ℤ → ℕ → SweepResult α
  | [], _ => ⟨[], [], []⟩
  | curr_label :: rest, i =>
      let r := try_fit_skms_loop cfg slices elbow rest (i + 1)
      match (elbow i).1 with
      | none => ⟨r.skms, -1 :: r.k_vals, [] :: r.k_scores⟩
      | some k_val =>
          ⟨⟨curr_label, skm_fit_params cfg k_val, slices⟩ :: r.skms,
            k_val :: r.k_vals, (elbow i).2 :: r.k_scores⟩

/-- Embedding of try_fit_skms (bias_variance.py lines 166-229) from the point
where the batches are materialised: convert_to_ndarray flattens the slice
dataset, np.unique lists the distinct labels, and the per-class loop fits one
codebook per label whose elbow search succeeds. -/
def try_fit_skms {α : Type} (configs : BiasVarianceConfig)
    (train : SliceDataset α) (elbow : ℕ → Option ℤ × List ℚ) : SweepResult α :=
  let sl := convert_to_ndarray train
  try_fit_skms_loop configs.skm_config sl.1 elbow (np_unique sl.2) 0

/-- Per-class loop of fit_skms (bias_variance.py lines 261-272): zip of the
unique labels with the supplied k values; each iteration fits a fresh
SphericalKMeans with the supplied k on the whole slices array, with no check
of the k value. -/
def fit_skms_loop {α : Type} (cfg : SKMConfig) (slices : List α) :
    List (ℤ × ℤ) → List (FittedSKM α)
  | [] => []
  | (curr_label, k_val) :: rest =>
      ⟨curr_label, skm_fit_params cfg k_val, slices⟩ ::
        fit_skms_loop cfg slices rest

/-- Embedding of fit_skms (bias_variance.py lines 232-273) from the point
where the batches are materialised.  Python's zip truncates to the shorter of
(unique labels, k_vals). -/
def fit_skms {α : Type} (cfg : SKMConfig) (train : SliceDataset α)
    (k_vals : List ℤ) : List (FittedSKM α) :=
  let sl := convert_to_ndarray train
  fit_skms_loop cfg sl.1 ((np_unique sl.2).zip k_vals)

/-- Embedding of np.bincount on a 1-D array of naturals with a minlength:
entry v counts the occurrences of v, and the length is the larger of
(largest value + 1) and minlength (0 and minlength for an empty array). -/
def np_bincount (l : List ℕ) (minlength : ℕ) : List ℕ :=
  (List.range
      (max (if l.isEmpty then 0 else l.foldr max 0 + 1) minlength)).map
    (fun v => l.count v)

/-- Configuration slice of BiasVarianceConfigBase consulted by
infer_single_audio. -/
structure InferConfigs where
  test_audio_path : String
  mel_spec_config : MelSpecConfig
  reshape_config : ReshapeConfig
  pool_config : PoolConfig

/-- Argument record infer_single_audio passes to transform_mel_spectrogram
(bias_variance.py lines 369-378): every field is forwarded from
mel_spec_config unmodified, including freq_max. -/
def infer_mel_args (cfg : MelSpecConfig) : MelTransformArgs :=
  ⟨cfg.sample_rate, cfg.n_fft, cfg.n_mels, cfg.freq_min, cfg.freq_max,
    cfg.window_size, cfg.hop_size, cfg.apply_log⟩

/-- Embedding of infer_single_audio (bias_variance.py lines 364-396).  The
external collaborators (librosa load, the mel transform, spectrogram slicing,
flattening, codebook projection, pooling, the classifier's predict) are
abstract parameters; the repository's own contribution is the sequencing,
the argument records and the final bincount ratio
res[0] / (res[0] + res[1]). -/
def infer_single_audio {W S F T P Q : Type}
    (rosa_load : String → ℚ → W)
    (transform_mel : W → MelTransformArgs → S × F × T)
    (slice_spectrogram : S → ℕ → ℕ → List S)
    (flatten_slice : S → P)
    (proj_skl_skm : List P → List (FittedSKM P) → Q)
    (apply_pool_func : Q → ℕ → ℕ → List Q)
    (predict : List Q → List ℕ)
    (skms : List (FittedSKM P)) (configs : InferConfigs) : ℚ :=
  let sound_wave := rosa_load configs.test_audio_path
    configs.mel_spec_config.sample_rate
  let m := transform_mel sound_wave (infer_mel_args configs.mel_spec_config)
  let slices := slice_spectrogram m.1 configs.reshape_config.slice_size
    configs.reshape_config.stride_size
  let flat_slices := slices.map flatten_slice
  let proj_slices := proj_skl_skm flat_slices skms
  let pool_slices := apply_pool_func proj_slices configs.pool_config.pool_size
    configs.pool_config.stride_size
  let pred := predict pool_slices
  let res := np_bincount pred 2
  (res.getD 0 0 : ℚ) / ((res.getD 0 0 : ℚ) + (res.getD 1 0 : ℚ))

/-- Slices of a training set belonging to one class: the flattened slices
whose aligned label equals that class (what the spec says each class's
codebook is fitted on). -/
def slices_of_label {α : Type} (slices : List α) (labels : List ℤ) (c : ℤ) :
    List α :=
  ((slices.zip labels).filter (fun p => p.2 == c)).map (fun p => p.1)

/-- Labels of the classes whose elbow search succeeds, in loop order: the
subsequence of the label list keeping the iterations where the elbow
visualizer reports a value. -/
def elbow_labels (elbow : ℕ → Option ℤ × List ℚ) : List ℤ → ℕ → List ℤ
  | [], _ => []
  | l :: rest, i =>
      match (elbow i).1 with
      | none => elbow_labels elbow rest (i + 1)
      | some _ => l :: elbow_labels elbow rest (i + 1)

/-- Elbow values of the classes whose elbow search succeeds, in loop order. -/
def elbow_ks (elbow : ℕ → Option ℤ × List ℚ) : List ℤ → ℕ → List ℤ
  | [], _ => []
  | _ :: rest, i =>
      match (elbow i).1 with
      | none => elbow_ks elbow rest (i + 1)
      | some k => k :: elbow_ks elbow rest (i + 1)

theorem mem_insertSorted (x a : ℤ) (l : List ℤ) :
    a ∈ insertSorted x l ↔ a = x ∨ a ∈ l := by
  induction l with
  | nil => simp [insertSorted]
  | cons y ys ih =>
    by_cases h1 : x < y
    · simp [insertSorted, h1]
    · by_cases h2 : x = y
      · subst h2
        simp only [insertSorted, lt_irrefl, if_false, if_true, List.mem_cons]
        tauto
      · simp only [insertSorted, if_neg h1, if_neg h2, List.mem_cons, ih]
        tauto

theorem pairwise_insertSorted (x : ℤ) (l : List ℤ)
    (h : l.Pairwise (· < ·)) : (insertSorted x l).Pairwise (· < ·) := by
  induction l with
  | nil => simp [insertSorted]
  | cons y ys ih =>
    rcases List.pairwise_cons.mp h with ⟨hy, hys⟩
    by_cases h1 : x < y
    · rw [insertSorted, if_pos h1]
      refine List.pairwise_cons.mpr ⟨?_, h⟩
      intro b hb
      rcases List.mem_cons.mp hb with rfl | hb
      · exact h1
      · exact lt_trans h1 (hy b hb)
    · by_cases h2 : x = y
      · subst h2
        rw [insertSorted, if_neg h1, if_pos rfl]
        exact h
      · rw [insertSorted, if_neg h1, if_neg h2]
        have hyx : y < x := lt_of_le_of_ne (not_lt.mp h1) fun e => h2 e.symm
        refine List.pairwise_cons.mpr ⟨?_, ih hys⟩
        intro b hb
        rcases (mem_insertSorted x b ys).mp hb with rfl | hb
        · exact hyx
        · exact hy b hb

theorem pairwise_foldl_insertSorted (l acc : List ℤ)
    (h : acc.Pairwise (· < ·)) :
    (l.foldl (fun a x => insertSorted x a) acc).Pairwise (· < ·) := by
  induction l generalizing acc with
  | nil => simpa using h
  | cons y ys ih => exact ih _ (pairwise_insertSorted y acc h)

theorem np_unique_pairwise (l : List ℤ) : (np_unique l).Pairwise (· < ·) :=
  pairwise_foldl_insertSorted l [] (by simp)

theorem mem_foldl_insertSorted (l acc : List ℤ) (a : ℤ) :
    a ∈ l.foldl (fun ac x => insertSorted x ac) acc ↔ a ∈ acc ∨ a ∈ l := by
  induction l generalizing acc with
  | nil => simp
  | cons y ys ih =>
    simp only [List.foldl_cons, ih, mem_insertSorted, List.mem_cons]
    tauto

theorem mem_np_unique (l : List ℤ) (a : ℤ) : a ∈ np_unique l ↔ a ∈ l := by
  simpa [np_unique] using mem_foldl_insertSorted l [] a

theorem np_unique_nodup (l : List ℤ) : (np_unique l).Nodup :=
  (np_unique_pairwise l).imp fun h => ne_of_lt h

theorem try_fit_skms_loop_lengths {α : Type} (cfg : SKMConfig)
    (slices : List α) (elbow : ℕ → Option ℤ × List ℚ) (ls : List ℤ) (i : ℕ) :
    (try_fit_skms_loop cfg slices elbow ls i).k_vals.length = ls.length ∧
      (try_fit_skms_loop cfg slices elbow ls i).k_scores.length = ls.length := by
  induction ls generalizing i with
  | nil => simp [try_fit_skms_loop]
  | cons y ys ih =>
    cases h : (elbow i).1 <;>
      simp [try_fit_skms_loop, h, (ih (i + 1)).1, (ih (i + 1)).2]

theorem try_fit_skms_loop_fit_labels {α : Type} (cfg : SKMConfig)
    (slices : List α) (elbow : ℕ → Option ℤ × List ℚ) (ls : List ℤ) (i : ℕ) :
    (try_fit_skms_loop cfg slices elbow ls i).skms.map (fun f => f.fit_label)
      = elbow_labels elbow ls i := by
  induction ls generalizing i with
  | nil => simp [try_fit_skms_loop, elbow_labels]
  | cons y ys ih =>
    cases h : (elbow i).1 <;>
      simp [try_fit_skms_loop, elbow_labels, h, ih (i + 1)]

theorem try_fit_skms_loop_n_clusters {α : Type} (cfg : SKMConfig)
    (slices : List α) (elbow : ℕ → Option ℤ × List ℚ) (ls : List ℤ) (i : ℕ) :
    (try_fit_skms_loop cfg slices elbow ls i).skms.map
        (fun f => f.params.n_clusters)
      = (elbow_ks elbow ls i).map some := by
  induction ls generalizing i with
  | nil => simp [try_fit_skms_loop, elbow_ks]
  | cons y ys ih =>
    cases h : (elbow i).1 <;>
      simp [try_fit_skms_loop, elbow_ks, skm_fit_params, h, ih (i + 1)]

theorem try_fit_skms_loop_skms_length {α : Type} (cfg : SKMConfig)
    (slices : List α) (elbow : ℕ → Option ℤ × List ℚ) (ls : List ℤ) (i : ℕ) :
    (try_fit_skms_loop cfg slices elbow ls i).skms.length
      = ((List.range' i ls.length).filter
          (fun j => ((elbow j).1).isSome)).length := by
  induction ls generalizing i with
  | nil => simp [try_fit_skms_loop]
  | cons y ys ih =>
    rw [List.length_cons, List.range'_succ]
    cases h : (elbow i).1 <;>
      simp [try_fit_skms_loop, h, List.filter_cons, ih (i + 1)]

theorem try_fit_skms_loop_entries {α : Type} (cfg : SKMConfig)
    (slices : List α) (elbow : ℕ → Option ℤ × List ℚ) (ls : List ℤ)
    (i0 i : ℕ) (h : i < ls.length) :
    ((try_fit_skms_loop cfg slices elbow ls i0).k_vals.getD i 0
        = match (elbow (i0 + i)).1 with | none => -1 | some k => k)
      ∧ ((try_fit_skms_loop cfg slices elbow ls i0).k_scores.getD i []
        = match (elbow (i0 + i)).1 with
          | none => [] | some _ => (elbow (i0 + i)).2) := by
  induction ls generalizing i0 i with
  | nil => simp at h
  | cons y ys ih =>
    cases i with
    | zero =>
      cases h0 : (elbow i0).1 <;> simp [try_fit_skms_loop, h0]
    | succ j =>
      have hj : j < ys.length := by simpa using Nat.lt_of_succ_lt_succ h
      have hrec := ih (i0 + 1) j hj
      have he : i0 + 1 + j = i0 + (j + 1) := by omega
      rw [he] at hrec
      cases h0 : (elbow i0).1 <;>
        simpa [try_fit_skms_loop, h0, List.getD_cons_succ] using hrec

theorem fit_skms_loop_length {α : Type} (cfg : SKMConfig) (slices : List α)
    (ps : List (ℤ × ℤ)) : (fit_skms_loop cfg slices ps).length = ps.length := by
  induction ps with
  | nil => rfl
  | cons p ps ih =>
    cases p
    simp [fit_skms_loop, ih]

theorem fit_skms_loop_n_clusters {α : Type} (cfg : SKMConfig)
    (slices : List α) (ps : List (ℤ × ℤ)) :
    (fit_skms_loop cfg slices ps).map (fun f => f.params.n_clusters)
      = ps.map (fun p => some p.2) := by
  induction ps with
  | nil => rfl
  | cons p ps ih =>
    cases p
    simp [fit_skms_loop, skm_fit_params, ih]

theorem fit_skms_loop_max_iter_seed {α : Type} (cfg : SKMConfig)
    (slices : List α) (ps : List (ℤ × ℤ)) :
    (fit_skms_loop cfg slices ps).map
        (fun f => (f.params.max_iter, f.params.random_state))
      = List.replicate ps.length (10000, (none : Option ℕ)) := by
  induction ps with
  | nil => rfl
  | cons p ps ih =>
    cases p
    simp [fit_skms_loop, skm_fit_params, ih, List.replicate_succ]

theorem try_fit_skms_loop_max_iter_seed {α : Type} (cfg : SKMConfig)
    (slices : List α) (elbow : ℕ → Option ℤ × List ℚ) (ls : List ℤ) (i : ℕ) :
    (try_fit_skms_loop cfg slices elbow ls i).skms.map
        (fun f => (f.params.max_iter, f.params.random_state))
      = List.replicate (try_fit_skms_loop cfg slices elbow ls i).skms.length
          (10000, (none : Option ℕ)) := by
  induction ls generalizing i with
  | nil => simp [try_fit_skms_loop]
  | cons y ys ih =>
    cases h : (elbow i).1 <;>
      simp [try_fit_skms_loop, skm_fit_params, h, ih (i + 1),
        List.replicate_succ]

theorem elbow_labels_sublist (elbow : ℕ → Option ℤ × List ℚ) (ls : List ℤ)
    (i0 : ℕ) : List.Sublist (elbow_labels elbow ls i0) ls := by
  induction ls generalizing i0 with
  | nil => simp [elbow_labels]
  | cons y ys ih =>
    cases h0 : (elbow i0).1 with
    | none =>
      rw [elbow_labels, h0]
      exact (ih (i0 + 1)).cons y
    | some k =>
      rw [elbow_labels, h0]
      exact (ih (i0 + 1)).cons₂ y

theorem sublist_getD_mem_drop {α : Type} {t l : List α} (h : List.Sublist t l)
    (i : ℕ) (hi : i < t.length) (d : α) : t.getD i d ∈ l.drop i := by
  induction h generalizing i with
  | slnil => simp at hi
  | @cons t2 l2 a h ih =>
    have hmem := ih i hi
    cases i with
    | zero => exact List.mem_cons_of_mem a (by simpa using hmem)
    | succ j =>
      have hdd : l2.drop (j + 1) = List.drop 1 (l2.drop j) := by
        rw [List.drop_drop]
      rw [hdd] at hmem
      have : t2.getD (j + 1) d ∈ l2.drop j :=
        List.drop_subset 1 (l2.drop j) hmem
      simpa using this
  | @cons₂ t2 l2 a h ih =>
    cases i with
    | zero => simp
    | succ j =>
      have hj : j < t2.length := by simpa using Nat.lt_of_succ_lt_succ hi
      simpa using ih j hj

theorem elbow_labels_getD_mem_drop (elbow : ℕ → Option ℤ × List ℚ)
    (ls : List ℤ) (i0 j i : ℕ) (d : ℤ) (hji : j ≤ i) (hj : j < ls.length)
    (hnone : (elbow (i0 + j)).1 = none)
    (hi : i < (elbow_labels elbow ls i0).length) :
    (elbow_labels elbow ls i0).getD i d ∈ ls.drop (i + 1) := by
  induction ls generalizing i0 j i with
  | nil => simp at hj
  | cons y ys ih =>
    cases h0 : (elbow i0).1 with
    | none =>
      rw [elbow_labels, h0] at hi ⊢
      have hlen : i < (elbow_labels elbow ys (i0 + 1)).length := hi
      have := sublist_getD_mem_drop (elbow_labels_sublist elbow ys (i0 + 1))
        i hlen d
      simpa using this
    | some k =>
      cases j with
      | zero =>
        rw [Nat.add_zero] at hnone
        rw [hnone] at h0
        cases h0
      | succ j2 =>
        cases i with
        | zero => omega
        | succ i2 =>
          rw [elbow_labels, h0] at hi ⊢
          have hj2 : j2 < ys.length := by
            simpa using Nat.lt_of_succ_lt_succ hj
          have hnone2 : (elbow (i0 + 1 + j2)).1 = none := by
            have e : i0 + 1 + j2 = i0 + (j2 + 1) := by omega
            rw [e]
            exact hnone
          have hi2 : i2 < (elbow_labels elbow ys (i0 + 1)).length := by
            simpa using Nat.lt_of_succ_lt_succ hi
          have := ih (i0 + 1) j2 i2 (by omega) hj2 hnone2 hi2
          simpa using this

theorem nodup_getD_not_mem_drop {α : Type} (ls : List α) (i : ℕ) (d : α)
    (hnd : ls.Nodup) (hi : i < ls.length) : ls.getD i d ∉ ls.drop (i + 1) := by
  induction ls generalizing i with
  | nil => simp at hi
  | cons y ys ih =>
    rcases List.nodup_cons.mp hnd with ⟨hy, hys⟩
    cases i with
    | zero => simpa using hy
    | succ j =>
      have hj : j < ys.length := by simpa using Nat.lt_of_succ_lt_succ hi
      simpa using ih j hys hj

theorem mem_elbow_labels (elbow : ℕ → Option ℤ × List ℚ) (ls : List ℤ)
    (i0 : ℕ) (x : ℤ) (h : x ∈ elbow_labels elbow ls i0) :
    ∃ j, j < ls.length ∧ ((elbow (i0 + j)).1).isSome ∧ ls.getD j 0 = x := by
  induction ls generalizing i0 with
  | nil => simp [elbow_labels] at h
  | cons y ys ih =>
    cases h0 : (elbow i0).1 with
    | none =>
      rw [elbow_labels, h0] at h
      rcases ih (i0 + 1) h with ⟨j, hj, hsome, hval⟩
      refine ⟨j + 1, by simpa using Nat.succ_lt_succ hj, ?_, by simpa using hval⟩
      have e : i0 + (j + 1) = i0 + 1 + j := by omega
      rw [e]
      exact hsome
    | some k =>
      rw [elbow_labels, h0] at h
      rcases List.mem_cons.mp h with rfl | h
      · exact ⟨0, by simp, by simp [h0], by simp⟩
      · rcases ih (i0 + 1) h with ⟨j, hj, hsome, hval⟩
        refine ⟨j + 1, by simpa using Nat.succ_lt_succ hj, ?_,
          by simpa using hval⟩
        have e : i0 + (j + 1) = i0 + 1 + j := by omega
        rw [e]
        exact hsome

theorem elbow_labels_length_lt (elbow : ℕ → Option ℤ × List ℚ) (ls : List ℤ)
    (i0 j : ℕ) (hj : j < ls.length) (hnone : (elbow (i0 + j)).1 = none) :
    (elbow_labels elbow ls i0).length < ls.length := by
  induction ls generalizing i0 j with
  | nil => simp at hj
  | cons y ys ih =>
    cases h0 : (elbow i0).1 with
    | none =>
      have hle := (elbow_labels_sublist elbow ys (i0 + 1)).length_le
      rw [elbow_labels, h0]
      simp only [List.length_cons]
      omega
    | some k =>
      cases j with
      | zero =>
        rw [Nat.add_zero] at hnone
        rw [hnone] at h0
        cases h0
      | succ j2 =>
        have hj2 : j2 < ys.length := by simpa using Nat.lt_of_succ_lt_succ hj
        have hnone2 : (elbow (i0 + 1 + j2)).1 = none := by
          have e : i0 + 1 + j2 = i0 + (j2 + 1) := by omega
          rw [e]
          exact hnone
        have := ih (i0 + 1) j2 hj2 hnone2
        rw [elbow_labels, h0]
        simp only [List.length_cons]
        omega

theorem np_bincount_getD (l : List ℕ) (v : ℕ) (hv : v < 2) :
    (np_bincount l 2).getD v 0 = l.count v := by
  unfold np_bincount
  have hvm : v < max (if l.isEmpty then 0 else l.foldr max 0 + 1) 2 :=
    lt_of_lt_of_le hv (le_max_right _ _)
  rw [List.getD_eq_getElem?_getD, List.getElem?_map, List.getElem?_range hvm]
  rfl

theorem count_zero_add_count_one (l : List ℕ) (h : ∀ x ∈ l, x ≤ 1) :
    l.count 0 + l.count 1 = l.length := by
  induction l with
  | nil => simp
  | cons y ys ih =>
    have hy := h y (List.mem_cons_self y ys)
    have hys : ∀ x ∈ ys, x ≤ 1 := fun x hx => h x (List.mem_cons_of_mem y hx)
    have hrec := ih hys
    interval_cases y <;> simp [List.count_cons] <;> omega

theorem getD_mem_of_lt {α : Type} (l : List α) (i : ℕ) (d : α)
    (h : i < l.length) : l.getD i d ∈ l := by
  induction l generalizing i with
  | nil => simp at h
  | cons y ys ih =>
    cases i with
    | zero => simp
    | succ j =>
      have := ih j (by simpa using Nat.lt_of_succ_lt_succ h)
      simpa using Or.inr this

theorem nodup_getD_inj {α : Type} (l : List α) (d : α) (hnd : l.Nodup)
    (i j : ℕ) (hi : i < l.length) (hj : j < l.length)
    (he : l.getD i d = l.getD j d) : i = j := by
  induction l generalizing i j with
  | nil => simp at hi
  | cons y ys ih =>
    rcases List.nodup_cons.mp hnd with ⟨hy, hys⟩
    cases i with
    | zero =>
      cases j with
      | zero => rfl
      | succ j2 =>
        exfalso
        apply hy
        have hj2 : j2 < ys.length := by simpa using Nat.lt_of_succ_lt_succ hj
        rw [List.getD_cons_zero, List.getD_cons_succ] at he
        rw [he]
        exact getD_mem_of_lt ys j2 d hj2
    | succ i2 =>
      cases j with
      | zero =>
        exfalso
        apply hy
        have hi2 : i2 < ys.length := by simpa using Nat.lt_of_succ_lt_succ hi
        rw [List.getD_cons_succ, List.getD_cons_zero] at he
        rw [← he]
        exact getD_mem_of_lt ys i2 d hi2
      | succ j2 =>
        have hi2 : i2 < ys.length := by simpa using Nat.lt_of_succ_lt_succ hi
        have hj2 : j2 < ys.length := by simpa using Nat.lt_of_succ_lt_succ hj
        rw [List.getD_cons_succ, List.getD_cons_succ] at he
        exact congrArg Nat.succ (ih hys i2 j2 hi2 hj2 he)

/-- C3 counterexample: calling try_fit_skms with the numpy divide mode at its
default "warn" leaves the mode at "ignore" after the function returns (the
code runs seterr(divide=ignore) again after the batch loop instead of
restoring), so the suppression toggle is left set, contradicting the claim
that the prior warning state is restored after batch loading. -/
theorem C3_counterexample :
    try_fit_skms_divide_mode DivideMode.warn = DivideMode.ignore ∧
      DivideMode.ignore ≠ DivideMode.warn :=
  ⟨rfl, by decide⟩

/-- C3 amended: generate_slice_dataset sets the divide mode to ignore before
batch loading and unconditionally to warn (not the prior state) after it, on
the normal path only; try_fit_skms, fit_skms, train_classifier and
val_classifier set ignore both before and after batch loading, so divide
warnings stay suppressed after they return; no batch loop restores the prior
state, and none installs an exception-safe guard. -/
theorem C3_amended_divide_mode (s : DivideMode) :
    generate_slice_dataset_divide_mode s = DivideMode.warn ∧
      try_fit_skms_divide_mode s = DivideMode.ignore ∧
      fit_skms_divide_mode s = DivideMode.ignore ∧
      train_classifier_divide_mode s = DivideMode.ignore ∧
      val_classifier_divide_mode s = DivideMode.ignore :=
  ⟨rfl, rfl, rfl, rfl, rfl⟩

/-- C7 counterexample: with freq_max configured as 0 (unset) and sample_rate
16000, infer_single_audio forwards 0, not the Nyquist bound 8000, to the mel
transform: its argument record carries freq_max 0, and running the pipeline
with a transform that reports the freq_max it received and a classifier that
votes class 0 exactly when the Nyquist default arrived yields confidence 0. -/
theorem C7_counterexample :
    (infer_mel_args ⟨16000, 1024, 40, 0, 0, 1024, 512, true⟩).freq_max = 0
      ∧ (0 : ℚ) ≠ 16000 / 2
      ∧ infer_single_audio (fun _ _ => ())
          (fun _ args => (args.freq_max, (), ())) (fun s _ _ => [s]) id
          (fun ps _ => ps) (fun q _ _ => [q])
          (fun pools => if pools = [[(8000 : ℚ)]] then [0] else [1]) []
          ⟨"test.wav", ⟨16000, 1024, 40, 0, 0, 1024, 512, true⟩, ⟨16, 8⟩,
            ⟨4, 2⟩⟩ = 0 := by
  refine ⟨rfl, by norm_num, ?_⟩
  show ((np_bincount [1] 2).getD 0 0 : ℚ) /
      (((np_bincount [1] 2).getD 0 0 : ℚ) + ((np_bincount [1] 2).getD 1 0 : ℚ))
    = 0
  have hb : np_bincount [1] 2 = [0, 1] := by decide
  rw [hb]
  norm_num

/-- C7 amended: the Nyquist default is applied by mel_spectrogram_collate
(the batch collate call site): the freq_max each transform call there
receives is the configured value when positive and sample_rate / 2
otherwise; infer_single_audio instead forwards the configured freq_max
unmodified to its transform call. -/
theorem C7_amended_freq_max_default {W : Type} (config : MelSpecConfig)
    (data : List (String × W × ℤ)) :
    (mel_spectrogram_collate (fun _ args => (args.freq_max, (), ())) data
          config).map (fun t => t.2.1)
        = data.map (fun _ =>
            if config.freq_max > 0 then config.freq_max
            else config.sample_rate / 2)
      ∧ (infer_mel_args config).freq_max = config.freq_max := by
  constructor
  · simp only [mel_spectrogram_collate, mel_collate_effective_freq_max,
      List.map_map]
    rfl
  · rfl

/-- C8: each spectrogram collate stage (mel_spectrogram_collate,
stft_spectrogram_collate) returns a batch of the same cardinality as its
input and, at every position, the output tuple carries the same filename and
the same label as the input tuple at that position: no file is dropped,
duplicated or reordered. -/
theorem C8_collate_preserves_batch {W S F T W2 S2 F2 T2 : Type}
    (transform_mel : W → MelTransformArgs → S × F × T)
    (transform_stft : W2 → STFTTransformArgs → S2 × F2 × T2)
    (data : List (String × W × ℤ)) (data2 : List (String × W2 × ℤ))
    (mcfg : MelSpecConfig) (scfg : STFTSpecConfig) :
    ((mel_spectrogram_collate transform_mel data mcfg).length = data.length
      ∧ (mel_spectrogram_collate transform_mel data mcfg).map
          (fun t => (t.1, t.2.2.2.2)) = data.map (fun d => (d.1, d.2.2)))
    ∧ ((stft_spectrogram_collate transform_stft data2 scfg).length
          = data2.length
      ∧ (stft_spectrogram_collate transform_stft data2 scfg).map
          (fun t => (t.1, t.2.2.2.2)) = data2.map (fun d => (d.1, d.2.2))) := by
  refine ⟨⟨?_, ?_⟩, ⟨?_, ?_⟩⟩
  · simp [mel_spectrogram_collate]
  · simp only [mel_spectrogram_collate, List.map_map]
    rfl
  · simp [stft_spectrogram_collate]
  · simp only [stft_spectrogram_collate, List.map_map]
    rfl

/-- C1: the code violates the claim: with training slices [10] (label 0) and
[20] (label 1), both the sweep-mode and the fixed-k codebook for class 0 are
fitted on the full slice array [10, 20] — which contains the class-1 slice
20 — and not on the class-0 slices [10] alone (the per-class loops call
skm.fit(slices) on the whole array; curr_label is never used to filter). -/
theorem C1_fit_uses_all_classes_slices :
    ((try_fit_skms ⟨⟨none, true, false, false⟩, 2, 10, 1⟩
          ⟨["a", "b"], [[(10 : ℤ)], [20]], [0, 1]⟩
          (fun _ => (some 2, [1]))).skms.map (fun f => (f.fit_label, f.data))
        = [(0, [10, 20]), (1, [10, 20])])
      ∧ ((fit_skms ⟨none, true, false, false⟩
            ⟨["a", "b"], [[(10 : ℤ)], [20]], [0, 1]⟩ [5, 7]).map
          (fun f => (f.fit_label, f.data))
        = [(0, [10, 20]), (1, [10, 20])])
      ∧ slices_of_label ([10, 20] : List ℤ) [0, 1] 0 = [10]
      ∧ ([10, 20] : List ℤ) ≠ [10] := by
  refine ⟨?_, ?_, ?_, ?_⟩ <;> decide

/-- C2 counterexample: a fitted classifier may predict a class other than 0
or 1; with per-slice predictions [0, 2] infer_single_audio returns
res[0] / (res[0] + res[1]) = 1 / (1 + 0) = 1, while the fraction of
predictions assigned to class 0 is 1/2, so the returned value is not
count(class 0) divided by the total number of predictions. -/
theorem C2_counterexample :
    infer_single_audio (fun _ _ => ()) (fun _ _ => ((), (), ()))
        (fun _ _ _ => []) (fun _ => ()) (fun _ _ => ()) (fun _ _ _ => [])
        (fun _ => [0, 2]) []
        ⟨"test.wav", ⟨16000, 1024, 40, 0, 8000, 1024, 512, true⟩, ⟨16, 8⟩,
          ⟨4, 2⟩⟩ = 1
      ∧ ((([0, 2] : List ℕ).count 0 : ℚ) / (([0, 2] : List ℕ).length : ℚ))
          = 1 / 2
      ∧ (1 : ℚ) ≠ 1 / 2 := by
  refine ⟨?_, ?_, by norm_num⟩
  · show ((np_bincount [0, 2] 2).getD 0 0 : ℚ) /
        (((np_bincount [0, 2] 2).getD 0 0 : ℚ)
          + ((np_bincount [0, 2] 2).getD 1 0 : ℚ)) = 1
    have hb : np_bincount [0, 2] 2 = [1, 0, 1] := by decide
    rw [hb]
    norm_num
  · have hc : ([0, 2] : List ℕ).count 0 = 1 := by decide
    have hl : ([0, 2] : List ℕ).length = 2 := by decide
    rw [hc, hl]
    norm_num

/-- C2 amended: infer_single_audio returns count(class 0) divided by
(count(class 0) + count(class 1)); whenever every per-slice prediction is
class 0 or class 1 (and the file yields at least one prediction), this equals
count(class 0) divided by the total number of predictions. -/
theorem C2_amended_confidence {W S F T P Q : Type}
    (rosa_load : String → ℚ → W)
    (transform_mel : W → MelTransformArgs → S × F × T)
    (slice_spectrogram : S → ℕ → ℕ → List S) (flatten_slice : S → P)
    (proj_skl_skm : List P → List (FittedSKM P) → Q)
    (apply_pool_func : Q → ℕ → ℕ → List Q)
    (skms : List (FittedSKM P)) (configs : InferConfigs) (pred : List ℕ)
    (_hne : 0 < pred.length) (h01 : ∀ x ∈ pred, x ≤ 1) :
    infer_single_audio rosa_load transform_mel slice_spectrogram flatten_slice
        proj_skl_skm apply_pool_func (fun _ => pred) skms configs
      = (pred.count 0 : ℚ) / (pred.length : ℚ) := by
  show ((np_bincount pred 2).getD 0 0 : ℚ) /
      (((np_bincount pred 2).getD 0 0 : ℚ)
        + ((np_bincount pred 2).getD 1 0 : ℚ)) = _
  rw [np_bincount_getD pred 0 (by norm_num),
    np_bincount_getD pred 1 (by norm_num), ← Nat.cast_add,
    count_zero_add_count_one pred h01]

/-- C2 witness: a classifier predicting class 0 for 9 of 12 slices and class
1 for the remaining 3 yields confidence 9/12 = 0.75. -/
theorem C2_amended_confidence_witness :
    infer_single_audio (fun _ _ => ()) (fun _ _ => ((), (), ()))
        (fun _ _ _ => []) (fun _ => ()) (fun _ _ => ()) (fun _ _ _ => [])
        (fun _ => [0, 0, 0, 0, 0, 0, 0, 0, 0, 1, 1, 1]) []
        ⟨"test.wav", ⟨16000, 1024, 40, 0, 8000, 1024, 512, true⟩, ⟨16, 8⟩,
          ⟨4, 2⟩⟩ = 3 / 4 := by
  have h := C2_amended_confidence (fun _ _ => ()) (fun _ _ => ((), (), ()))
    (fun _ _ _ => []) (fun _ => ()) (fun _ _ => ()) (fun _ _ _ => []) []
    ⟨"test.wav", ⟨16000, 1024, 40, 0, 8000, 1024, 512, true⟩, ⟨16, 8⟩, ⟨4, 2⟩⟩
    [0, 0, 0, 0, 0, 0, 0, 0, 0, 1, 1, 1] (by decide) (by decide)
  rw [h]
  have hc : ([0, 0, 0, 0, 0, 0, 0, 0, 0, 1, 1, 1] : List ℕ).count 0 = 9 := by
    decide
  have hl : ([0, 0, 0, 0, 0, 0, 0, 0, 0, 1, 1, 1] : List ℕ).length = 12 := by
    decide
  rw [hc, hl]
  norm_num

/-- C4 counterexample: with two distinct labels 0 and 1 present in the train
partition and a supplied k list of length one, fixed-k fit_skms returns a
single codebook, not one per distinct label, because zip truncates. -/
theorem C4_counterexample :
    (fit_skms ⟨none, true, false, false⟩
          ⟨["a", "b"], [[(10 : ℤ)], [20]], [0, 1]⟩ [5]).length = 1
      ∧ (np_unique [0, 1]).length = 2 ∧ (1 : ℕ) ≠ 2 := by
  refine ⟨?_, ?_, ?_⟩ <;> decide

/-- C4 amended: after codebook fitting on a train partition, fixed-k mode
returns min(number of distinct labels, length of the supplied k list)
codebooks, and sweep mode returns one codebook per distinct label whose
elbow search succeeded; either count equals the number of distinct labels
only when the k list is long enough, respectively when every class's elbow
is detected. -/
theorem C4_amended_codebook_count {α : Type} (cfg : SKMConfig)
    (bv : BiasVarianceConfig) (train : SliceDataset α) (k_vals : List ℤ)
    (elbow : ℕ → Option ℤ × List ℚ) :
    (fit_skms cfg train k_vals).length
        = min (np_unique (convert_to_ndarray train).2).length k_vals.length
      ∧ (try_fit_skms bv train elbow).skms.length
        = ((List.range
              (np_unique (convert_to_ndarray train).2).length).filter
            (fun j => ((elbow j).1).isSome)).length := by
  constructor
  · show (fit_skms_loop cfg (convert_to_ndarray train).1
        ((np_unique (convert_to_ndarray train).2).zip k_vals)).length = _
    rw [fit_skms_loop_length, List.length_zip]
  · show (try_fit_skms_loop bv.skm_config (convert_to_ndarray train).1 elbow
        (np_unique (convert_to_ndarray train).2) 0).skms.length = _
    rw [try_fit_skms_loop_skms_length, List.range_eq_range']

/-- C5: in sweep mode, when the elbow search reports no elbow for the class
at position i of the sorted distinct training labels, try_fit_skms records
k = -1 and an empty score list at position i, and fits and returns no
codebook for that class: its label is not among the labels whose iterations
fitted the returned codebooks.  The embedded function is total, matching the
source's normal return (no exception is raised). -/
theorem C5_no_elbow_marks_class_invalid {α : Type} (bv : BiasVarianceConfig)
    (train : SliceDataset α) (elbow : ℕ → Option ℤ × List ℚ) (i : ℕ)
    (hi : i < (np_unique (convert_to_ndarray train).2).length)
    (hnone : (elbow i).1 = none) :
    (try_fit_skms bv train elbow).k_vals.getD i 0 = -1
      ∧ (try_fit_skms bv train elbow).k_scores.getD i [] = []
      ∧ (np_unique (convert_to_ndarray train).2).getD i 0
          ∉ (try_fit_skms bv train elbow).skms.map (fun f => f.fit_label) := by
  have hent := try_fit_skms_loop_entries bv.skm_config
    (convert_to_ndarray train).1 elbow
    (np_unique (convert_to_ndarray train).2) 0 i hi
  rw [Nat.zero_add, hnone] at hent
  refine ⟨hent.1, hent.2, ?_⟩
  intro hmem
  rw [show (try_fit_skms bv train elbow).skms
      = (try_fit_skms_loop bv.skm_config (convert_to_ndarray train).1 elbow
          (np_unique (convert_to_ndarray train).2) 0).skms from rfl,
    try_fit_skms_loop_fit_labels] at hmem
  rcases mem_elbow_labels elbow (np_unique (convert_to_ndarray train).2) 0 _
    hmem with ⟨j, hj, hsome, hval⟩
  rw [Nat.zero_add] at hsome
  have hij : j = i :=
    nodup_getD_inj (np_unique (convert_to_ndarray train).2) 0
      (np_unique_nodup (convert_to_ndarray train).2) j i hj hi hval
  rw [hij, hnone] at hsome
  cases hsome

/-- C5 witness: with training labels 0 and 1, the elbow failing for the
first class (position 0) and returning k = 3 for the second, position 0 of
k_vals holds -1, position 0 of k_scores is empty, and label 0 has no fitted
codebook. -/
theorem C5_no_elbow_witness :
    (try_fit_skms ⟨⟨none, true, false, false⟩, 2, 10, 1⟩
          ⟨["a", "b"], [[(10 : ℤ)], [20]], [0, 1]⟩
          (fun j => if j = 0 then (none, []) else (some 3, [1, 2]))).k_vals.getD
        0 0 = -1
      ∧ (try_fit_skms ⟨⟨none, true, false, false⟩, 2, 10, 1⟩
            ⟨["a", "b"], [[(10 : ℤ)], [20]], [0, 1]⟩
            (fun j =>
              if j = 0 then (none, []) else (some 3, [1, 2]))).k_scores.getD
          0 [] = []
      ∧ (np_unique (convert_to_ndarray
            (⟨["a", "b"], [[(10 : ℤ)], [20]], [0, 1]⟩ : SliceDataset ℤ)).2).getD
            0 0
          ∉ (try_fit_skms ⟨⟨none, true, false, false⟩, 2, 10, 1⟩
              ⟨["a", "b"], [[(10 : ℤ)], [20]], [0, 1]⟩
              (fun j => if j = 0 then (none, []) else (some 3, [1, 2]))).skms.map
            (fun f => f.fit_label) :=
  C5_no_elbow_marks_class_invalid ⟨⟨none, true, false, false⟩, 2, 10, 1⟩
    ⟨["a", "b"], [[(10 : ℤ)], [20]], [0, 1]⟩
    (fun j => if j = 0 then (none, []) else (some 3, [1, 2])) 0
    (by decide) (by decide)

/-- C6 counterexample: fixed-k fit_skms performs no branch on the k = -1
NoElbowDetected marker: with the supplied k list [-1] for the single class 0
it constructs and fits a SphericalKMeans with n_clusters = -1, so not every
caller of codebook fitting branches on the marker before fitting. -/
theorem C6_counterexample :
    (fit_skms ⟨none, true, false, false⟩ ⟨["a"], [[(10 : ℤ)]], [0]⟩
          [-1]).map (fun f => f.params.n_clusters) = [some (-1)] := by
  decide

/-- C6 amended: in sweep mode the loop branches on the no-elbow marker before
constructing a codebook, so every fitted codebook's n_clusters is an
elbow-returned value (k = -1 can reach a fit there only if the elbow search
itself returns -1); in fixed-k mode the supplied k values, including -1, are
passed to codebook fitting unchecked, one per zipped (label, k) pair. -/
theorem C6_amended_fit_cluster_counts {α : Type} (bv : BiasVarianceConfig)
    (cfg : SKMConfig) (train : SliceDataset α)
    (elbow : ℕ → Option ℤ × List ℚ) (k_vals : List ℤ) :
    (try_fit_skms bv train elbow).skms.map (fun f => f.params.n_clusters)
        = (elbow_ks elbow (np_unique (convert_to_ndarray train).2) 0).map some
      ∧ (fit_skms cfg train k_vals).map (fun f => f.params.n_clusters)
        = ((np_unique (convert_to_ndarray train).2).zip k_vals).map
            (fun p => some p.2) := by
  constructor
  · exact try_fit_skms_loop_n_clusters bv.skm_config
      (convert_to_ndarray train).1 elbow
      (np_unique (convert_to_ndarray train).2) 0
  · exact fit_skms_loop_n_clusters cfg (convert_to_ndarray train).1
      ((np_unique (convert_to_ndarray train).2).zip k_vals)

/-- C9 counterexample: at a concrete input the fitted codebook's constructor
received no random seed (random_state is none, the library default, because
no call site passes one), so spherical k-means initialization randomness is
not seed-controlled by this code and the claimed run-to-run reproducibility
is not established. -/
theorem C9_counterexample :
    (try_fit_skms ⟨⟨none, true, false, false⟩, 2, 10, 1⟩
          ⟨["a"], [[(10 : ℤ)]], [0]⟩ (fun _ => (some 2, [1]))).skms.length = 1
      ∧ ((try_fit_skms ⟨⟨none, true, false, false⟩, 2, 10, 1⟩
            ⟨["a"], [[(10 : ℤ)]], [0]⟩ (fun _ => (some 2, [1]))).skms.all
          (fun f => f.params.random_state.isSome)) = false := by
  refine ⟨?_, ?_⟩ <;> decide

/-- C9 amended: every codebook fit in both modes is constructed with
max_iter = 10000, and every SphericalKMeans construction (the elbow-search
estimator and the fitting estimators of both modes) passes no random_state,
so the fit's iteration count is capped at 10000 but the initialization
randomness is not seeded by these call sites. -/
theorem C9_amended_max_iter_no_seed {α : Type} (bv : BiasVarianceConfig)
    (cfg : SKMConfig) (train : SliceDataset α)
    (elbow : ℕ → Option ℤ × List ℚ) (k_vals : List ℤ) (k : ℤ) :
    ((try_fit_skms bv train elbow).skms.map
          (fun f => (f.params.max_iter, f.params.random_state))
        = List.replicate (try_fit_skms bv train elbow).skms.length
            (10000, none))
      ∧ ((fit_skms cfg train k_vals).map
          (fun f => (f.params.max_iter, f.params.random_state))
        = List.replicate (fit_skms cfg train k_vals).length (10000, none))
      ∧ (skm_search_params cfg).max_iter = 10000
      ∧ (skm_search_params cfg).random_state = none
      ∧ (skm_fit_params cfg k).max_iter = 10000
      ∧ (skm_fit_params cfg k).random_state = none := by
  refine ⟨?_, ?_, rfl, rfl, rfl, rfl⟩
  · exact try_fit_skms_loop_max_iter_seed bv.skm_config
      (convert_to_ndarray train).1 elbow
      (np_unique (convert_to_ndarray train).2) 0
  · rw [show fit_skms cfg train k_vals
        = fit_skms_loop cfg (convert_to_ndarray train).1
            ((np_unique (convert_to_ndarray train).2).zip k_vals) from rfl,
      fit_skms_loop_max_iter_seed, fit_skms_loop_length]

/-- C10: in sweep mode try_fit_skms returns k_vals and k_scores with exactly
one entry per distinct training label (indexed by the sorted duplicate-free
label list), while skms holds one codebook per label whose elbow was
detected, in the same label order; consequently, whenever the class at
position j has no detected elbow, skms is shorter than k_vals, and at every
position i ≥ j still inside skms the codebook was fitted in the iteration of
a label different from the label at position i — the lists are
misaligned. -/
theorem C10_sweep_result_alignment {α : Type} (bv : BiasVarianceConfig)
    (train : SliceDataset α) (elbow : ℕ → Option ℤ × List ℚ) :
    ((try_fit_skms bv train elbow).k_vals.length
        = (np_unique (convert_to_ndarray train).2).length
      ∧ (try_fit_skms bv train elbow).k_scores.length
        = (np_unique (convert_to_ndarray train).2).length)
    ∧ ((np_unique (convert_to_ndarray train).2).Pairwise (· < ·)
      ∧ ∀ a, a ∈ np_unique (convert_to_ndarray train).2
          ↔ a ∈ (convert_to_ndarray train).2)
    ∧ (try_fit_skms bv train elbow).skms.map (fun f => f.fit_label)
        = elbow_labels elbow (np_unique (convert_to_ndarray train).2) 0
    ∧ ∀ j i : ℕ, j ≤ i
        → j < (np_unique (convert_to_ndarray train).2).length
        → (elbow j).1 = none
        → (try_fit_skms bv train elbow).skms.length
              < (try_fit_skms bv train elbow).k_vals.length
          ∧ (i < (try_fit_skms bv train elbow).skms.length
            → ((try_fit_skms bv train elbow).skms.map
                  (fun f => f.fit_label)).getD i 0
                ≠ (np_unique (convert_to_ndarray train).2).getD i 0) := by
  rw [show try_fit_skms bv train elbow
      = try_fit_skms_loop bv.skm_config (convert_to_ndarray train).1 elbow
          (np_unique (convert_to_ndarray train).2) 0 from rfl]
  have hlen := try_fit_skms_loop_lengths bv.skm_config
    (convert_to_ndarray train).1 elbow
    (np_unique (convert_to_ndarray train).2) 0
  have hlab := try_fit_skms_loop_fit_labels bv.skm_config
    (convert_to_ndarray train).1 elbow
    (np_unique (convert_to_ndarray train).2) 0
  refine ⟨⟨hlen.1, hlen.2⟩,
    ⟨np_unique_pairwise _, fun a => mem_np_unique _ a⟩, hlab, ?_⟩
  intro j i hji hj hnone
  have hnone0 : (elbow (0 + j)).1 = none := by
    rw [Nat.zero_add]
    exact hnone
  have hmaplen : (try_fit_skms_loop bv.skm_config (convert_to_ndarray train).1
        elbow (np_unique (convert_to_ndarray train).2) 0).skms.length
      = (elbow_labels elbow
          (np_unique (convert_to_ndarray train).2) 0).length := by
    rw [← hlab, List.length_map]
  have hlt : (try_fit_skms_loop bv.skm_config (convert_to_ndarray train).1
        elbow (np_unique (convert_to_ndarray train).2) 0).skms.length
      < (np_unique (convert_to_ndarray train).2).length := by
    rw [hmaplen]
    exact elbow_labels_length_lt elbow _ 0 j hj hnone0
  constructor
  · rw [hlen.1]
    exact hlt
  · intro hi hEq
    rw [hlab] at hEq
    have hi2 : i < (elbow_labels elbow
        (np_unique (convert_to_ndarray train).2) 0).length := by
      rw [← hmaplen]
      exact hi
    have hmem := elbow_labels_getD_mem_drop elbow
      (np_unique (convert_to_ndarray train).2) 0 j i 0 hji hj hnone0 hi2
    rw [hEq] at hmem
    exact nodup_getD_not_mem_drop _ i 0
      (np_unique_nodup (convert_to_ndarray train).2)
      (lt_trans hi hlt) hmem

/-- C10 witness: with training labels 0 and 1 and the elbow failing for the
class at position 0 and returning k = 3 for the class at position 1, the
single fitted codebook makes skms shorter than k_vals, and the codebook at
position 0 was fitted for label 1, not for label 0 at position 0 of the
sorted labels. -/
theorem C10_sweep_result_alignment_witness :
    (try_fit_skms ⟨⟨none, true, false, false⟩, 2, 10, 1⟩
          ⟨["a", "b"], [[(10 : ℤ)], [20]], [0, 1]⟩
          (fun j => if j = 0 then (none, [])
            else (some 3, [1, 2]))).skms.length
        < (try_fit_skms ⟨⟨none, true, false, false⟩, 2, 10, 1⟩
            ⟨["a", "b"], [[(10 : ℤ)], [20]], [0, 1]⟩
            (fun j => if j = 0 then (none, [])
              else (some 3, [1, 2]))).k_vals.length
      ∧ ((try_fit_skms ⟨⟨none, true, false, false⟩, 2, 10, 1⟩
            ⟨["a", "b"], [[(10 : ℤ)], [20]], [0, 1]⟩
            (fun j => if j = 0 then (none, [])
              else (some 3, [1, 2]))).skms.map (fun f => f.fit_label)).getD 0 0
          ≠ (np_unique (convert_to_ndarray
              (⟨["a", "b"], [[(10 : ℤ)], [20]],
                [0, 1]⟩ : SliceDataset ℤ)).2).getD 0 0 := by
  have h := (C10_sweep_result_alignment
      ⟨⟨none, true, false, false⟩, 2, 10, 1⟩
      ⟨["a", "b"], [[(10 : ℤ)], [20]], [0, 1]⟩
      (fun j => if j = 0 then (none, [])
        else (some 3, [1, 2]))).2.2.2 0 0 le_rfl (by decide) (by decide)
  exact ⟨h.1, h.2 (by decide)⟩

end AudioClassifier
